import Mathlib

/-
Shallow embedding of the datacontracts repository (src/datacontracts/contract.py
and src/datacontracts/errors.py): a schema-validation layer for tabular data.

Modelling choices:
- A cell value is a Python value (`PyVal`): an int, a string, or one of the two
  null values a pandas cell can hold, Python None and the float NaN.  The table
  follows the access contract of the spec: each column is an ordered list of
  (row_id, value) pairs, as an object-dtype pandas Series holds them.  The
  expected types are int, str and float; the float kind's claim-relevant
  inhabitant is NaN (the null float) — `isinstance(float("nan"), float)` is
  True while `isinstance(None, float)` is False, and no claim involves finite
  float arithmetic, which is outside a shallow embedding anyway.
- `isinstance(x, col.dtype)` is `isInstance`.
- The pandas element-wise comparisons `series < col.min` and `series > col.max`
  on an object column follow pandas scalar_compare semantics: a null on either
  side yields False, same-kind values compare, and a cross-kind comparison of
  non-null values raises TypeError (pandas catches TypeError only for == and !=,
  not for < and >).  This partiality is modelled with `Except Unit`.
- `series.isin(col.allowed)` never raises; cross-kind membership tests are False.
- The Python code accumulates error strings.  The embedding accumulates
  structured records (`Record`) whose `Record.message` reproduces the exact
  f-strings of contract.py, and `ContractError` carries the string list, as
  errors.py does.
-/

namespace DataContracts

/-- A Python value held in a table cell: an int, a string, or a null — either
Python None or the float NaN (the two behave alike in pandas comparisons but
differently under isinstance). -/
inductive PyVal where
  | int : Int → PyVal
  | str : String → PyVal
  | nan : PyVal
  | none : PyVal
deriving DecidableEq

/-- A Python type tag usable as `col.dtype` (the expected type of a column). -/
inductive PyType where
  | int : PyType
  | str : PyType
  | float : PyType
deriving DecidableEq

/-- Python `isinstance(x, dtype)`: None is an instance of no expected type,
but NaN is a float, so `isinstance(float("nan"), float)` is True. -/
def isInstance : PyVal → PyType → Bool
  | PyVal.int _, PyType.int => true
  | PyVal.str _, PyType.str => true
  | PyVal.nan, PyType.float => true
  | _, _ => false

/-- Python `str(value)` as used inside the f-strings of contract.py. -/
def PyVal.render : PyVal → String
  | PyVal.int n => toString n
  | PyVal.str s => s
  | PyVal.nan => "nan"
  | PyVal.none => "None"

/-- Element-wise `x < val` as pandas scalar_compare performs it on an object
column: null on either side gives False without raising; int/int and str/str
compare normally; any other pairing raises TypeError (modelled as `error`). -/
def pyLt : PyVal → PyVal → Except Unit Bool
  | PyVal.none, _ => Except.ok false
  | PyVal.nan, _ => Except.ok false
  | _, PyVal.none => Except.ok false
  | _, PyVal.nan => Except.ok false
  | PyVal.int a, PyVal.int b => Except.ok (decide (a < b))
  | PyVal.str a, PyVal.str b => Except.ok (decide (a < b))
  | _, _ => Except.error ()

/-- Element-wise `x > val`, same semantics as `pyLt`. -/
def pyGt : PyVal → PyVal → Except Unit Bool
  | PyVal.none, _ => Except.ok false
  | PyVal.nan, _ => Except.ok false
  | _, PyVal.none => Except.ok false
  | _, PyVal.nan => Except.ok false
  | PyVal.int a, PyVal.int b => Except.ok (decide (a > b))
  | PyVal.str a, PyVal.str b => Except.ok (decide (a > b))
  | _, _ => Except.error ()

/-- Python `x == y` as `Series.isin` membership uses it: cross-kind comparison
is False (TypeError is caught for equality), and pandas isin treats the null
values (None and NaN) as matching each other. -/
def pyEq : PyVal → PyVal → Bool
  | PyVal.int a, PyVal.int b => decide (a = b)
  | PyVal.str a, PyVal.str b => decide (a = b)
  | PyVal.none, PyVal.none => true
  | PyVal.none, PyVal.nan => true
  | PyVal.nan, PyVal.none => true
  | PyVal.nan, PyVal.nan => true
  | _, _ => false

/-- Modelled from the spec: the Column rule of src/datacontracts/column.py,
which is imported by contract.py but absent from the sources.  Per §4.1 it is a
constructor taking `(expected_type, min=None, max=None, allowed=None)` with
read-only fields and no construction-time consistency validation. -/
structure Column where
  dtype : PyType
  min : Option PyVal
  max : Option PyVal
  allowed : Option (List PyVal)
deriving DecidableEq

/-- A table column: the ordered (row_id, value) pairs of a pandas Series. -/
abbrev Cells := List (Nat × PyVal)

/-- The table (DataFrame) seen through the access contract of §6: named columns,
each an ordered sequence of (row_id, value) pairs. -/
abbrev Table := List (String × Cells)

/-- The schema: `Contract.columns()`, the named Column rules in class-dict
(declaration) order. -/
abbrev Schema := List (String × Column)

/-- One validation error record.  The Python code stores only the rendered
message; `Record.message` below reproduces it exactly. -/
inductive Record where
  | missingColumn (name : String)
  | wrongType (name : String) (row : Nat) (value : PyVal)
  | belowMin (name : String) (bound : PyVal) (row : Nat) (value : PyVal)
  | aboveMax (name : String) (bound : PyVal) (row : Nat) (value : PyVal)
  | disallowedValue (name : String) (row : Nat) (value : PyVal)
deriving DecidableEq

/-- The exact strings appended to `errors` in contract.py. -/
def Record.message : Record → String
  | Record.missingColumn name => "Missing column: " ++ name
  | Record.wrongType name row value =>
      "Column '" ++ name ++ "' has wrong type (row " ++ toString row
        ++ ", value=" ++ value.render ++ ")"
  | Record.belowMin name bound row value =>
      "Column '" ++ name ++ "' below min " ++ bound.render ++ " (row "
        ++ toString row ++ ", value=" ++ value.render ++ ")"
  | Record.aboveMax name bound row value =>
      "Column '" ++ name ++ "' above max " ++ bound.render ++ " (row "
        ++ toString row ++ ", value=" ++ value.render ++ ")"
  | Record.disallowedValue name row value =>
      "Column '" ++ name ++ "' has invalid value (row " ++ toString row
        ++ ", value=" ++ value.render ++ ")"

/-- ContractError of src/datacontracts/errors.py: stores the error list. -/
structure ContractError where
  errors : List String
deriving DecidableEq

/-- The exception message built by ContractError.__init__:
`"\n".join(errors)`. -/
def ContractError.message (e : ContractError) : String :=
  String.intercalate "\n" e.errors

/-- Boolean-mask filtering `series[mask]` where the mask comes from an
element-wise comparison that can raise: the whole mask is computed, the first
TypeError propagates, otherwise the rows whose mask entry is True remain, in
row order. -/
def filterExc (p : PyVal → Except Unit Bool) : Cells → Except Unit Cells
  | [] => Except.ok []
  | c :: cs =>
      match p c.2 with
      | Except.error e => Except.error e
      | Except.ok b =>
          match filterExc p cs with
          | Except.error e => Except.error e
          | Except.ok rest => Except.ok (if b then c :: rest else rest)

/-- Step 2 of validate: `series[~series.map(lambda x: isinstance(x, col.dtype))]`,
one wrong-type record per offending row, in row order. -/
def checkType (name : String) (dtype : PyType) (cells : Cells) : List Record :=
  (cells.filter (fun c => ! isInstance c.2 dtype)).map
    (fun c => Record.wrongType name c.1 c.2)

/-- Step 3 of validate: if `col.min is not None`, `series[series < col.min]`,
one below-min record per offending row; the comparison itself can raise. -/
def checkMin (name : String) (col : Column) (cells : Cells) :
    Except Unit (List Record) :=
  match col.min with
  | Option.none => Except.ok []
  | Option.some m =>
      match filterExc (fun v => pyLt v m) cells with
      | Except.error e => Except.error e
      | Except.ok invalid =>
          Except.ok (invalid.map (fun c => Record.belowMin name m c.1 c.2))

/-- Step 4 of validate: if `col.max is not None`, `series[series > col.max]`. -/
def checkMax (name : String) (col : Column) (cells : Cells) :
    Except Unit (List Record) :=
  match col.max with
  | Option.none => Except.ok []
  | Option.some m =>
      match filterExc (fun v => pyGt v m) cells with
      | Except.error e => Except.error e
      | Except.ok invalid =>
          Except.ok (invalid.map (fun c => Record.aboveMax name m c.1 c.2))

/-- Step 5 of validate: if `col.allowed is not None`,
`series[~series.isin(col.allowed)]`; `isin` never raises. -/
def checkAllowed (name : String) (col : Column) (cells : Cells) : List Record :=
  match col.allowed with
  | Option.none => []
  | Option.some allowed =>
      (cells.filter (fun c => ! allowed.any (fun a => pyEq c.2 a))).map
        (fun c => Record.disallowedValue name c.1 c.2)

/-- The records contributed by one rule of the loop body of Contract.validate:
if the column is absent, one missing-column record and `continue`; otherwise the
type records, then the min records (the comparison may raise), then the max
records, then the allowed records. -/
def ruleRecords (t : Table) (name : String) (col : Column) :
    Except Unit (List Record) :=
  match t.lookup name with
  | Option.none => Except.ok [Record.missingColumn name]
  | Option.some cells =>
      match checkMin name col cells with
      | Except.error e => Except.error e
      | Except.ok minRecs =>
          match checkMax name col cells with
          | Except.error e => Except.error e
          | Except.ok maxRecs =>
              Except.ok (checkType name col.dtype cells ++ minRecs ++ maxRecs
                ++ checkAllowed name col cells)

/-- The whole accumulation loop of Contract.validate: rules in declaration
order; a TypeError raised inside any rule propagates and discards everything. -/
def validateRecords (s : Schema) (t : Table) : Except Unit (List Record) :=
  match s with
  | [] => Except.ok []
  | (name, col) :: rest =>
      match ruleRecords t name col with
      | Except.error e => Except.error e
      | Except.ok recs =>
          match validateRecords rest t with
          | Except.error e => Except.error e
          | Except.ok restRecs => Except.ok (recs ++ restRecs)

/-- The observable outcome of one Contract.validate call: normal return, a
raised ContractError, or a TypeError escaping from a pandas comparison. -/
inductive ValidateResult where
  | ok : ValidateResult
  | contractError (e : ContractError) : ValidateResult
  | typeError : ValidateResult
deriving DecidableEq

/-- Contract.validate: run the loop; `if errors: raise ContractError(errors)`,
else return None.  A TypeError from a comparison escapes as-is. -/
def validate (s : Schema) (t : Table) : ValidateResult :=
  match validateRecords s t with
  | Except.error _ => ValidateResult.typeError
  | Except.ok recs =>
      if recs.isEmpty then ValidateResult.ok
      else ValidateResult.contractError (ContractError.mk (recs.map Record.message))

/-- The truth value of a mask entry that did not raise: `ok b` holds iff `b`. -/
def cmpHolds : Except Unit Bool → Bool
  | Except.ok b => b
  | Except.error _ => false

/-- Whether a mask entry was computed without raising. -/
def excOk : Except Unit Bool → Bool
  | Except.ok _ => true
  | Except.error _ => false

/-- Whether the element-wise comparison of `v` against a bound is defined
(does not raise TypeError): null on either side, or both of the same kind. -/
def cmpDefined : PyVal → PyVal → Bool
  | PyVal.none, _ => true
  | PyVal.nan, _ => true
  | _, PyVal.none => true
  | _, PyVal.nan => true
  | PyVal.int _, PyVal.int _ => true
  | PyVal.str _, PyVal.str _ => true
  | _, _ => false

/-- Every cell of the rule's column (when present) is comparable with the set
min/max bounds, so no pandas comparison in this rule raises. -/
def ruleComparable (t : Table) (name : String) (col : Column) : Bool :=
  match t.lookup name with
  | Option.none => true
  | Option.some cells =>
      (match col.min with
       | Option.none => true
       | Option.some m => cells.all (fun c => cmpDefined c.2 m))
      && (match col.max with
       | Option.none => true
       | Option.some m => cells.all (fun c => cmpDefined c.2 m))

/-- Every rule of the schema is comparable against the table. -/
def schemaComparable (s : Schema) (t : Table) : Bool :=
  s.all (fun p => ruleComparable t p.1 p.2)

/-- Following the spec's words: the wrong-type records of one rule, one per
cell failing the expected-type check, in row order. -/
def specTypeRecords (name : String) (dtype : PyType) (cells : Cells) :
    List Record :=
  (cells.filter (fun c => ! isInstance c.2 dtype)).map
    (fun c => Record.wrongType name c.1 c.2)

/-- Following the spec's words: the below-min records, one per cell whose value
compares less than the set min, in row order; none when min is absent. -/
def specMinRecords (name : String) (col : Column) (cells : Cells) :
    List Record :=
  match col.min with
  | Option.none => []
  | Option.some m =>
      (cells.filter (fun c => cmpHolds (pyLt c.2 m))).map
        (fun c => Record.belowMin name m c.1 c.2)

/-- Following the spec's words: the above-max records, symmetric to min. -/
def specMaxRecords (name : String) (col : Column) (cells : Cells) :
    List Record :=
  match col.max with
  | Option.none => []
  | Option.some m =>
      (cells.filter (fun c => cmpHolds (pyGt c.2 m))).map
        (fun c => Record.aboveMax name m c.1 c.2)

/-- Following the spec's words: the disallowed-value records, one per cell not
a member of the set allowed list, in row order; none when allowed is absent. -/
def specAllowedRecords (name : String) (col : Column) (cells : Cells) :
    List Record :=
  match col.allowed with
  | Option.none => []
  | Option.some allowed =>
      (cells.filter (fun c => ! allowed.any (fun a => pyEq c.2 a))).map
        (fun c => Record.disallowedValue name c.1 c.2)

/-- Following the spec's words (§4.2 aggregation): the records of one rule, by
check in the fixed order existence, type, min, max, allowed; one existence
record and nothing else when the column is absent. -/
def specRuleRecords (t : Table) (name : String) (col : Column) : List Record :=
  match t.lookup name with
  | Option.none => [Record.missingColumn name]
  | Option.some cells =>
      specTypeRecords name col.dtype cells
        ++ specMinRecords name col cells
        ++ specMaxRecords name col cells
        ++ specAllowedRecords name col cells

/-- Following the spec's words: all records grouped by rule in
schema-declaration order. -/
def specValidateRecords (s : Schema) (t : Table) : List Record :=
  match s with
  | [] => []
  | (name, col) :: rest => specRuleRecords t name col ++ specValidateRecords rest t

/-- Record kind discriminator: wrong-type records. -/
def Record.isWrongType : Record → Bool
  | Record.wrongType _ _ _ => true
  | _ => false

/-- Record kind discriminator: disallowed-value records. -/
def Record.isDisallowed : Record → Bool
  | Record.disallowedValue _ _ _ => true
  | _ => false

theorem filterExc_ok_eq {p : PyVal → Except Unit Bool} :
    ∀ {cells : Cells} {l : Cells}, filterExc p cells = Except.ok l →
      l = cells.filter (fun c => cmpHolds (p c.2)) := by
  intro cells
  induction cells with
  | nil =>
      intro l h
      simpa [filterExc] using h.symm
  | cons c cs ih =>
      intro l h
      cases hp : p c.2 with
      | error e => simp [filterExc, hp] at h
      | ok b =>
          cases hf : filterExc p cs with
          | error e => simp [filterExc, hp, hf] at h
          | ok rest =>
              have hrest := ih hf
              simp only [filterExc, hp, hf] at h
              cases h
              cases b <;> simp [List.filter, hp, cmpHolds, hrest]

theorem checkMin_ok_eq {name : String} {col : Column} {cells : Cells}
    {l : List Record} (h : checkMin name col cells = Except.ok l) :
    l = specMinRecords name col cells := by
  unfold checkMin at h
  cases hm : col.min with
  | none =>
      simp only [hm] at h
      cases h
      simp [specMinRecords, hm]
  | some m =>
      simp only [hm] at h
      cases hf : filterExc (fun v => pyLt v m) cells with
      | error e => simp only [hf] at h; exact Except.noConfusion h
      | ok invalid =>
          simp only [hf] at h
          cases h
          simp [specMinRecords, hm, filterExc_ok_eq hf]

theorem checkMax_ok_eq {name : String} {col : Column} {cells : Cells}
    {l : List Record} (h : checkMax name col cells = Except.ok l) :
    l = specMaxRecords name col cells := by
  unfold checkMax at h
  cases hm : col.max with
  | none =>
      simp only [hm] at h
      cases h
      simp [specMaxRecords, hm]
  | some m =>
      simp only [hm] at h
      cases hf : filterExc (fun v => pyGt v m) cells with
      | error e => simp only [hf] at h; exact Except.noConfusion h
      | ok invalid =>
          simp only [hf] at h
          cases h
          simp [specMaxRecords, hm, filterExc_ok_eq hf]

theorem ruleRecords_ok_eq {t : Table} {name : String} {col : Column}
    {recs : List Record} (h : ruleRecords t name col = Except.ok recs) :
    recs = specRuleRecords t name col := by
  unfold ruleRecords at h
  cases hl : t.lookup name with
  | none =>
      simp only [hl] at h
      cases h
      simp [specRuleRecords, hl]
  | some cells =>
      simp only [hl] at h
      cases h1 : checkMin name col cells with
      | error e => simp only [h1] at h; exact Except.noConfusion h
      | ok minRecs =>
          simp only [h1] at h
          cases h2 : checkMax name col cells with
          | error e => simp only [h2] at h; exact Except.noConfusion h
          | ok maxRecs =>
              simp only [h2] at h
              cases h
              simp [specRuleRecords, hl, checkMin_ok_eq h1, checkMax_ok_eq h2,
                specTypeRecords, checkType, specAllowedRecords, checkAllowed]

theorem validateRecords_ok_eq {s : Schema} {t : Table} :
    ∀ {recs : List Record}, validateRecords s t = Except.ok recs →
      recs = specValidateRecords s t := by
  induction s with
  | nil =>
      intro recs h
      simpa [validateRecords, specValidateRecords] using h.symm
  | cons p rest ih =>
      intro recs h
      obtain ⟨name, col⟩ := p
      unfold validateRecords at h
      cases h1 : ruleRecords t name col with
      | error e => simp only [h1] at h; exact Except.noConfusion h
      | ok l =>
          simp only [h1] at h
          cases h2 : validateRecords rest t with
          | error e => simp only [h2] at h; exact Except.noConfusion h
          | ok restRecs =>
              simp only [h2] at h
              cases h
              simp [specValidateRecords, ruleRecords_ok_eq h1, ih h2]

theorem excOk_pyLt (v b : PyVal) : excOk (pyLt v b) = cmpDefined v b := by
  cases v <;> cases b <;> rfl

theorem excOk_pyGt (v b : PyVal) : excOk (pyGt v b) = cmpDefined v b := by
  cases v <;> cases b <;> rfl

theorem filterExc_isOk {p : PyVal → Except Unit Bool} :
    ∀ {cells : Cells}, (∀ c ∈ cells, excOk (p c.2) = true) →
      ∃ l, filterExc p cells = Except.ok l := by
  intro cells
  induction cells with
  | nil => intro _; exact ⟨[], rfl⟩
  | cons c cs ih =>
      intro hall
      have hc : excOk (p c.2) = true := hall c (List.mem_cons_self c cs)
      obtain ⟨l, hl⟩ := ih (fun x hx => hall x (List.mem_cons_of_mem c hx))
      cases hp : p c.2 with
      | error e => rw [hp] at hc; exact absurd hc (by simp [excOk])
      | ok b => exact ⟨if b then c :: l else l, by simp only [filterExc, hp, hl]⟩

theorem ruleRecords_isOk {t : Table} {name : String} {col : Column}
    (h : ruleComparable t name col = true) :
    ∃ recs, ruleRecords t name col = Except.ok recs := by
  unfold ruleComparable at h
  unfold ruleRecords
  cases hl : t.lookup name with
  | none => exact ⟨[Record.missingColumn name], by simp only [hl]⟩
  | some cells =>
      simp only [hl] at h
      rw [Bool.and_eq_true] at h
      obtain ⟨hminC, hmaxC⟩ := h
      have hminok : ∃ l, checkMin name col cells = Except.ok l := by
        unfold checkMin
        cases hm : col.min with
        | none => exact ⟨[], rfl⟩
        | some m =>
            simp only [hm] at hminC
            obtain ⟨l, hfl⟩ := filterExc_isOk (p := fun v => pyLt v m)
              (fun c hc => by
                rw [excOk_pyLt]
                exact List.all_eq_true.mp hminC c hc)
            exact ⟨l.map (fun c => Record.belowMin name m c.1 c.2),
              by simp only [hfl]⟩
      have hmaxok : ∃ l, checkMax name col cells = Except.ok l := by
        unfold checkMax
        cases hm : col.max with
        | none => exact ⟨[], rfl⟩
        | some m =>
            simp only [hm] at hmaxC
            obtain ⟨l, hfl⟩ := filterExc_isOk (p := fun v => pyGt v m)
              (fun c hc => by
                rw [excOk_pyGt]
                exact List.all_eq_true.mp hmaxC c hc)
            exact ⟨l.map (fun c => Record.aboveMax name m c.1 c.2),
              by simp only [hfl]⟩
      obtain ⟨l1, hm1⟩ := hminok
      obtain ⟨l2, hm2⟩ := hmaxok
      exact ⟨checkType name col.dtype cells ++ l1 ++ l2
        ++ checkAllowed name col cells, by simp only [hm1, hm2]⟩

theorem validateRecords_isOk {t : Table} :
    ∀ {s : Schema}, schemaComparable s t = true →
      ∃ recs, validateRecords s t = Except.ok recs := by
  intro s
  induction s with
  | nil => intro _; exact ⟨[], rfl⟩
  | cons p rest ih =>
      intro h
      obtain ⟨name, col⟩ := p
      unfold schemaComparable at h
      rw [List.all_cons, Bool.and_eq_true] at h
      obtain ⟨h1, h2⟩ := h
      obtain ⟨l1, hl1⟩ := ruleRecords_isOk h1
      obtain ⟨l2, hl2⟩ := ih h2
      exact ⟨l1 ++ l2, by simp only [validateRecords, hl1, hl2]⟩

theorem filter_map_false {α : Type} {p : Record → Bool} {f : α → Record}
    (hp : ∀ a, p (f a) = false) : ∀ l : List α, (l.map f).filter p = [] := by
  intro l
  induction l with
  | nil => rfl
  | cons a l ih => simp [List.filter_cons, hp, ih]

theorem filter_map_true {α : Type} {p : Record → Bool} {f : α → Record}
    (hp : ∀ a, p (f a) = true) : ∀ l : List α, (l.map f).filter p = l.map f := by
  intro l
  induction l with
  | nil => rfl
  | cons a l ih => simp [List.filter_cons, hp, ih]

theorem specMinRecords_filter {name : String} {col : Column} {cells : Cells}
    {p : Record → Bool} (hp : ∀ nm b r v, p (Record.belowMin nm b r v) = false) :
    (specMinRecords name col cells).filter p = [] := by
  unfold specMinRecords
  cases hm : col.min with
  | none => rfl
  | some m => exact filter_map_false (fun (c : Nat × PyVal) => hp name m c.1 c.2) _

theorem specMaxRecords_filter {name : String} {col : Column} {cells : Cells}
    {p : Record → Bool} (hp : ∀ nm b r v, p (Record.aboveMax nm b r v) = false) :
    (specMaxRecords name col cells).filter p = [] := by
  unfold specMaxRecords
  cases hm : col.max with
  | none => rfl
  | some m => exact filter_map_false (fun (c : Nat × PyVal) => hp name m c.1 c.2) _

theorem specAllowedRecords_filter {name : String} {col : Column} {cells : Cells}
    {p : Record → Bool} (hp : ∀ nm r v, p (Record.disallowedValue nm r v) = false) :
    (specAllowedRecords name col cells).filter p = [] := by
  unfold specAllowedRecords
  cases hm : col.allowed with
  | none => rfl
  | some allowed => exact filter_map_false (fun (c : Nat × PyVal) => hp name c.1 c.2) _

theorem specTypeRecords_filter {name : String} {dtype : PyType} {cells : Cells}
    {p : Record → Bool} (hp : ∀ nm r v, p (Record.wrongType nm r v) = true) :
    (specTypeRecords name dtype cells).filter p = specTypeRecords name dtype cells := by
  unfold specTypeRecords
  exact filter_map_true (fun (c : Nat × PyVal) => hp name c.1 c.2) _

theorem specTypeRecords_filter_isDisallowed {name : String} {dtype : PyType}
    {cells : Cells} :
    (specTypeRecords name dtype cells).filter Record.isDisallowed = [] := by
  unfold specTypeRecords
  exact filter_map_false (fun (c : Nat × PyVal) => rfl) _

theorem filter_not_any_nil (l : Cells) :
    l.filter (fun c => ! List.any [] (fun a => pyEq c.2 a)) = l := by
  induction l with
  | nil => rfl
  | cons c cs ih => simp [List.filter_cons, ih]

/-- Claim C1 (corrected): the claim that validate has no exit other than
success or the one final aggregate ContractError is false in general — a pandas
comparison in the min/max checks raises TypeError mid-evaluation on a cell that
is not order-comparable with the bound (see the counterexample).  Amended: when
every cell of each min/max-constrained present column is order-comparable with
the bound, validate completes the whole pass, never raises mid-evaluation, and
either succeeds (zero records) or fails exactly once at the end with the
aggregate error wrapping the full record sequence. -/
theorem validate_single_exit (s : Schema) (t : Table)
    (h : schemaComparable s t = true) :
    ∃ recs, validateRecords s t = Except.ok recs
      ∧ ((recs = [] ∧ validate s t = ValidateResult.ok)
        ∨ (recs ≠ [] ∧ validate s t
            = ValidateResult.contractError
                (ContractError.mk (recs.map Record.message)))) := by
  obtain ⟨recs, hrecs⟩ := validateRecords_isOk h
  refine ⟨recs, hrecs, ?_⟩
  cases recs with
  | nil =>
      left
      exact ⟨rfl, by simp [validate, hrecs]⟩
  | cons r rest =>
      right
      refine ⟨by simp, ?_⟩
      simp [validate, hrecs]

/-- Claim C1 counterexample: a schema with min set over a column holding a
string makes `series < col.min` compare "x" with 0, which raises TypeError
mid-evaluation — a third exit besides success and ContractError. -/
theorem validate_single_exit_cex :
    validate
        [("age", Column.mk PyType.int (Option.some (PyVal.int 0))
            Option.none Option.none)]
        [("age", [(0, PyVal.str "x")])]
      = ValidateResult.typeError := rfl

/-- Claim C1 witness: a concrete comparable schema/table pair on which the
amended theorem yields the ContractError outcome. -/
theorem validate_single_exit_witness :
    schemaComparable
        [("age", Column.mk PyType.int Option.none Option.none Option.none)] []
      = true
    ∧ ∃ recs,
        validateRecords
            [("age", Column.mk PyType.int Option.none Option.none Option.none)] []
          = Except.ok recs
        ∧ ((recs = [] ∧ validate
              [("age", Column.mk PyType.int Option.none Option.none Option.none)] []
              = ValidateResult.ok)
          ∨ (recs ≠ [] ∧ validate
              [("age", Column.mk PyType.int Option.none Option.none Option.none)] []
              = ValidateResult.contractError
                  (ContractError.mk (recs.map Record.message)))) :=
  ⟨rfl, validate_single_exit _ _ rfl⟩

/-- Claim C2: the min, max and allowed checks are each computed over every
cell of a present column regardless of the type check's outcome, so a cell
that fails the expected-type check still yields a BelowMin record whenever its
value compares below a set min, an AboveMax record whenever it compares above
a set max, and a DisallowedValue record whenever it is outside a set allowed
list — alongside its WrongType record, in the same pass. -/
theorem typecheck_and_range_independent (t : Table) (name : String)
    (col : Column) (cells : Cells) (recs : List Record) (i : Nat) (v : PyVal)
    (hcells : t.lookup name = Option.some cells)
    (hrec : ruleRecords t name col = Except.ok recs)
    (hmem : (i, v) ∈ cells)
    (hty : isInstance v col.dtype = false) :
    Record.wrongType name i v ∈ recs
    ∧ (∀ m, col.min = Option.some m → pyLt v m = Except.ok true →
        Record.belowMin name m i v ∈ recs)
    ∧ (∀ m, col.max = Option.some m → pyGt v m = Except.ok true →
        Record.aboveMax name m i v ∈ recs)
    ∧ (∀ al, col.allowed = Option.some al →
        al.any (fun a => pyEq v a) = false →
        Record.disallowedValue name i v ∈ recs) := by
  have hspec := ruleRecords_ok_eq hrec
  subst hspec
  have h1 : Record.wrongType name i v ∈ specTypeRecords name col.dtype cells := by
    unfold specTypeRecords
    exact List.mem_map_of_mem _ (List.mem_filter.mpr ⟨hmem, by simp [hty]⟩)
  refine ⟨?_, ?_, ?_, ?_⟩
  · simp only [specRuleRecords, hcells, List.mem_append]
    tauto
  · intro m hmin hlt
    have h2 : Record.belowMin name m i v ∈ specMinRecords name col cells := by
      simp only [specMinRecords, hmin]
      exact List.mem_map_of_mem _ (List.mem_filter.mpr ⟨hmem, by simp [hlt, cmpHolds]⟩)
    simp only [specRuleRecords, hcells, List.mem_append]
    tauto
  · intro m hmax hgt
    have h2 : Record.aboveMax name m i v ∈ specMaxRecords name col cells := by
      simp only [specMaxRecords, hmax]
      exact List.mem_map_of_mem _ (List.mem_filter.mpr ⟨hmem, by simp [hgt, cmpHolds]⟩)
    simp only [specRuleRecords, hcells, List.mem_append]
    tauto
  · intro al hal hnotin
    have h2 : Record.disallowedValue name i v ∈ specAllowedRecords name col cells := by
      simp only [specAllowedRecords, hal]
      exact List.mem_map_of_mem _ (List.mem_filter.mpr ⟨hmem, by simp [hnotin]⟩)
    simp only [specRuleRecords, hcells, List.mem_append]
    tauto

/-- Claim C2 witness: the int cell 5 in a str-typed column with min 10, max 3
and allowed {7} produces all four records in one pass. -/
theorem typecheck_and_range_independent_witness :
    Record.wrongType "a" 0 (PyVal.int 5)
      ∈ [Record.wrongType "a" 0 (PyVal.int 5),
         Record.belowMin "a" (PyVal.int 10) 0 (PyVal.int 5),
         Record.aboveMax "a" (PyVal.int 3) 0 (PyVal.int 5),
         Record.disallowedValue "a" 0 (PyVal.int 5)]
    ∧ Record.belowMin "a" (PyVal.int 10) 0 (PyVal.int 5)
      ∈ [Record.wrongType "a" 0 (PyVal.int 5),
         Record.belowMin "a" (PyVal.int 10) 0 (PyVal.int 5),
         Record.aboveMax "a" (PyVal.int 3) 0 (PyVal.int 5),
         Record.disallowedValue "a" 0 (PyVal.int 5)]
    ∧ Record.aboveMax "a" (PyVal.int 3) 0 (PyVal.int 5)
      ∈ [Record.wrongType "a" 0 (PyVal.int 5),
         Record.belowMin "a" (PyVal.int 10) 0 (PyVal.int 5),
         Record.aboveMax "a" (PyVal.int 3) 0 (PyVal.int 5),
         Record.disallowedValue "a" 0 (PyVal.int 5)]
    ∧ Record.disallowedValue "a" 0 (PyVal.int 5)
      ∈ [Record.wrongType "a" 0 (PyVal.int 5),
         Record.belowMin "a" (PyVal.int 10) 0 (PyVal.int 5),
         Record.aboveMax "a" (PyVal.int 3) 0 (PyVal.int 5),
         Record.disallowedValue "a" 0 (PyVal.int 5)] := by
  have h := typecheck_and_range_independent
    [("a", [(0, PyVal.int 5)])] "a"
    (Column.mk PyType.str (Option.some (PyVal.int 10))
      (Option.some (PyVal.int 3)) (Option.some [PyVal.int 7]))
    [(0, PyVal.int 5)]
    [Record.wrongType "a" 0 (PyVal.int 5),
     Record.belowMin "a" (PyVal.int 10) 0 (PyVal.int 5),
     Record.aboveMax "a" (PyVal.int 3) 0 (PyVal.int 5),
     Record.disallowedValue "a" 0 (PyVal.int 5)]
    0 (PyVal.int 5) rfl rfl (by simp) rfl
  exact ⟨h.1, h.2.1 (PyVal.int 10) rfl rfl, h.2.2.1 (PyVal.int 3) rfl rfl,
    h.2.2.2 [PyVal.int 7] rfl rfl⟩

/-- Claim C3 counterexample: on the spec's end-to-end example the call does not
fail with the three expected records — the min check's comparison of "x" with 0
raises TypeError first. -/
theorem end_to_end_age_example_cex :
    validate
        [("age", Column.mk PyType.int (Option.some (PyVal.int 0))
            (Option.some (PyVal.int 120)) Option.none)]
        [("age", [(0, PyVal.int 25), (1, PyVal.int (-5)), (2, PyVal.str "x"),
          (3, PyVal.int 150)])]
      ≠ ValidateResult.contractError (ContractError.mk
          ["Column 'age' has wrong type (row 2, value=x)",
           "Column 'age' below min 0 (row 1, value=-5)",
           "Column 'age' above max 120 (row 3, value=150)"]) := by
  decide

/-- Claim C3 (corrected): on the example schema and table the type check alone
produces exactly the WrongType record for row 2, but the min check's comparison
of "x" with 0 raises, so the whole call exits with TypeError and no
ContractError is ever raised. -/
theorem end_to_end_age_example_amended :
    checkType "age" PyType.int
        [(0, PyVal.int 25), (1, PyVal.int (-5)), (2, PyVal.str "x"),
          (3, PyVal.int 150)]
      = [Record.wrongType "age" 2 (PyVal.str "x")]
    ∧ pyLt (PyVal.str "x") (PyVal.int 0) = Except.error ()
    ∧ validate
        [("age", Column.mk PyType.int (Option.some (PyVal.int 0))
            (Option.some (PyVal.int 120)) Option.none)]
        [("age", [(0, PyVal.int 25), (1, PyVal.int (-5)), (2, PyVal.str "x"),
          (3, PyVal.int 150)])]
      = ValidateResult.typeError :=
  ⟨rfl, rfl, rfl⟩

/-- Claim C4: when a declared column is absent from the table, the rule emits
exactly one MissingColumn record and nothing else — the type/min/max/allowed
checks are all skipped. -/
theorem missing_column_single_record (t : Table) (name : String) (col : Column)
    (h : t.lookup name = Option.none) :
    ruleRecords t name col = Except.ok [Record.missingColumn name] := by
  unfold ruleRecords
  simp only [h]

/-- Claim C4 witness: the declared column "region" over an empty table. -/
theorem missing_column_single_record_witness :
    List.lookup "region" ([] : Table) = Option.none
    ∧ ruleRecords [] "region"
        (Column.mk PyType.str Option.none Option.none Option.none)
      = Except.ok [Record.missingColumn "region"] :=
  ⟨rfl, missing_column_single_record [] "region" _ rfl⟩

/-- Claim C5: for a present column, the WrongType records among the rule's
records are exactly one per cell failing the expected-type check, in the
column's row order, so their number equals the number of offending cells. -/
theorem wrongtype_records_per_offending_row (t : Table) (name : String)
    (col : Column) (cells : Cells) (recs : List Record)
    (hcells : t.lookup name = Option.some cells)
    (hrec : ruleRecords t name col = Except.ok recs) :
    recs.filter Record.isWrongType
        = (cells.filter (fun c => ! isInstance c.2 col.dtype)).map
            (fun c => Record.wrongType name c.1 c.2)
    ∧ (recs.filter Record.isWrongType).length
        = (cells.filter (fun c => ! isInstance c.2 col.dtype)).length := by
  have hspec := ruleRecords_ok_eq hrec
  subst hspec
  have hmain : (specRuleRecords t name col).filter Record.isWrongType
      = specTypeRecords name col.dtype cells := by
    simp only [specRuleRecords, hcells, List.filter_append]
    rw [specTypeRecords_filter (fun nm r v => rfl),
      specMinRecords_filter (fun nm b r v => rfl),
      specMaxRecords_filter (fun nm b r v => rfl),
      specAllowedRecords_filter (fun nm r v => rfl)]
    simp
  constructor
  · rw [hmain]; rfl
  · rw [hmain]
    unfold specTypeRecords
    simp

/-- Claim C5 witness: two of three cells fail the int type check. -/
theorem wrongtype_records_per_offending_row_witness :
    ([Record.wrongType "a" 1 (PyVal.str "y"),
      Record.wrongType "a" 2 PyVal.none] : List Record).filter Record.isWrongType
        = (([(0, PyVal.int 1), (1, PyVal.str "y"), (2, PyVal.none)] : Cells).filter
            (fun c => ! isInstance c.2 PyType.int)).map
            (fun c => Record.wrongType "a" c.1 c.2)
    ∧ (([Record.wrongType "a" 1 (PyVal.str "y"),
        Record.wrongType "a" 2 PyVal.none] : List Record).filter
          Record.isWrongType).length
        = (([(0, PyVal.int 1), (1, PyVal.str "y"), (2, PyVal.none)] : Cells).filter
            (fun c => ! isInstance c.2 PyType.int)).length :=
  wrongtype_records_per_offending_row
    [("a", [(0, PyVal.int 1), (1, PyVal.str "y"), (2, PyVal.none)])] "a"
    (Column.mk PyType.int Option.none Option.none Option.none)
    [(0, PyVal.int 1), (1, PyVal.str "y"), (2, PyVal.none)]
    [Record.wrongType "a" 1 (PyVal.str "y"), Record.wrongType "a" 2 PyVal.none]
    rfl rfl

/-- Claim C6: the record sequence of a completed pass is exactly the
deterministic order the spec states — grouped by rule in schema-declaration
order, within a rule by check in the fixed order existence, type, min, max,
allowed, and within a check in row order (this is `specValidateRecords`,
written from the spec's words). -/
theorem emission_order_deterministic (s : Schema) (t : Table)
    (recs : List Record) (h : validateRecords s t = Except.ok recs) :
    recs = specValidateRecords s t :=
  validateRecords_ok_eq h

/-- Claim C6 witness: a two-rule schema over a table listing its columns in the
opposite order still emits rule-a records before rule-b records. -/
theorem emission_order_deterministic_witness :
    ([Record.belowMin "a" (PyVal.int 0) 0 (PyVal.int (-1)),
      Record.disallowedValue "b" 0 (PyVal.str "C")] : List Record)
      = specValidateRecords
          [("a", Column.mk PyType.int (Option.some (PyVal.int 0))
              Option.none Option.none),
           ("b", Column.mk PyType.str Option.none Option.none
              (Option.some [PyVal.str "A"]))]
          [("b", [(0, PyVal.str "C"), (1, PyVal.str "A")]),
           ("a", [(0, PyVal.int (-1))])] :=
  emission_order_deterministic
    [("a", Column.mk PyType.int (Option.some (PyVal.int 0))
        Option.none Option.none),
     ("b", Column.mk PyType.str Option.none Option.none
        (Option.some [PyVal.str "A"]))]
    [("b", [(0, PyVal.str "C"), (1, PyVal.str "A")]),
     ("a", [(0, PyVal.int (-1))])]
    [Record.belowMin "a" (PyVal.int 0) 0 (PyVal.int (-1)),
     Record.disallowedValue "b" 0 (PyVal.str "C")]
    rfl

/-- Claim C7: a non-empty completed record sequence makes validate fail with
the aggregate error whose errors field is the full ordered message list and
whose textual representation is the newline-joined concatenation of the
records' messages in emission order. -/
theorem aggregate_error_exposes_records (s : Schema) (t : Table)
    (recs : List Record) (h : validateRecords s t = Except.ok recs)
    (hne : recs ≠ []) :
    validate s t
        = ValidateResult.contractError
            (ContractError.mk (recs.map Record.message))
    ∧ (ContractError.mk (recs.map Record.message)).errors
        = recs.map Record.message
    ∧ (ContractError.mk (recs.map Record.message)).message
        = String.intercalate "\n" (recs.map Record.message) := by
  have hemp : recs.isEmpty = false := by
    cases recs with
    | nil => exact absurd rfl hne
    | cons r rest => rfl
  exact ⟨by simp [validate, h, hemp], rfl, rfl⟩

/-- Claim C7 witness: a single missing-column record. -/
theorem aggregate_error_exposes_records_witness :
    validate [("region", Column.mk PyType.str Option.none Option.none Option.none)] []
        = ValidateResult.contractError
            (ContractError.mk (([Record.missingColumn "region"]).map Record.message))
    ∧ (ContractError.mk (([Record.missingColumn "region"]).map Record.message)).errors
        = ([Record.missingColumn "region"]).map Record.message
    ∧ (ContractError.mk (([Record.missingColumn "region"]).map Record.message)).message
        = String.intercalate "\n" (([Record.missingColumn "region"]).map Record.message) :=
  aggregate_error_exposes_records
    [("region", Column.mk PyType.str Option.none Option.none Option.none)] []
    [Record.missingColumn "region"] rfl (by simp)

/-- Claim C8: the outcome of validate, success or failure together with the
full ordered record list, is a deterministic function of the schema and the
table alone — two calls on the same unchanged inputs agree. -/
theorem validate_deterministic (s s2 : Schema) (t t2 : Table)
    (hs : s = s2) (ht : t = t2) : validate s t = validate s2 t2 := by
  rw [hs, ht]

/-- Claim C8 witness: two identical calls on a concrete schema and table. -/
theorem validate_deterministic_witness :
    validate [("age", Column.mk PyType.int Option.none Option.none Option.none)]
        [("age", [(0, PyVal.int 1)])]
      = validate [("age", Column.mk PyType.int Option.none Option.none Option.none)]
        [("age", [(0, PyVal.int 1)])] :=
  validate_deterministic _ _ _ _ rfl rfl

/-- Claim C9 (corrected): a null cell goes through the same un-special-cased
isinstance test as any other value, and a None null fails every expected type,
producing a WrongType record — but the claim that every null fails the type
check is false: NaN is an instance of float, so under a float-typed rule a NaN
null passes the type check and produces no record (see the counterexample). -/
theorem null_cells_fail_type_check (t : Table) (name : String) (col : Column)
    (cells : Cells) (recs : List Record) (i : Nat)
    (hcells : t.lookup name = Option.some cells)
    (hrec : ruleRecords t name col = Except.ok recs)
    (hmem : (i, PyVal.none) ∈ cells) :
    isInstance PyVal.none col.dtype = false
    ∧ Record.wrongType name i PyVal.none ∈ recs
    ∧ isInstance PyVal.nan col.dtype = decide (col.dtype = PyType.float) := by
  have hty : isInstance PyVal.none col.dtype = false := by
    cases col.dtype <;> rfl
  refine ⟨hty, ?_, by cases col.dtype <;> rfl⟩
  have hspec := ruleRecords_ok_eq hrec
  subst hspec
  have h1 : Record.wrongType name i PyVal.none
      ∈ specTypeRecords name col.dtype cells := by
    unfold specTypeRecords
    exact List.mem_map_of_mem _ (List.mem_filter.mpr ⟨hmem, by simp [hty]⟩)
  simp only [specRuleRecords, hcells, List.mem_append]
  tauto

/-- Claim C9 counterexample: a NaN null in a float-typed rule passes the type
check — the rule emits no record at all and validate succeeds, so a null cell
does not always produce a WrongType record. -/
theorem null_cells_fail_type_check_cex :
    isInstance PyVal.nan PyType.float = true
    ∧ ruleRecords [("a", [(0, PyVal.nan)])] "a"
        (Column.mk PyType.float Option.none Option.none Option.none)
      = Except.ok []
    ∧ validate
        [("a", Column.mk PyType.float Option.none Option.none Option.none)]
        [("a", [(0, PyVal.nan)])]
      = ValidateResult.ok :=
  ⟨rfl, rfl, rfl⟩

/-- Claim C9 witness: a single None null cell in an int column fails the type
check and is flagged. -/
theorem null_cells_fail_type_check_witness :
    isInstance PyVal.none PyType.int = false
    ∧ Record.wrongType "a" 0 PyVal.none
        ∈ [Record.wrongType "a" 0 PyVal.none]
    ∧ isInstance PyVal.nan PyType.int = decide (PyType.int = PyType.float) :=
  null_cells_fail_type_check [("a", [(0, PyVal.none)])] "a"
    (Column.mk PyType.int Option.none Option.none Option.none)
    [(0, PyVal.none)] [Record.wrongType "a" 0 PyVal.none] 0 rfl rfl (by simp)

/-- Claim C10: an empty allowed list is not treated as absence of the
constraint — with `allowed = some []` every cell of a present column yields a
DisallowedValue record, while `allowed = none` yields none. -/
theorem empty_allowed_flags_every_cell (t : Table) (name : String)
    (col : Column) (cells : Cells) (recs : List Record)
    (hcells : t.lookup name = Option.some cells)
    (hrec : ruleRecords t name col = Except.ok recs) :
    (col.allowed = Option.some [] →
      recs.filter Record.isDisallowed
        = cells.map (fun c => Record.disallowedValue name c.1 c.2))
    ∧ (col.allowed = Option.none → recs.filter Record.isDisallowed = []) := by
  have hspec := ruleRecords_ok_eq hrec
  subst hspec
  have hsplit : (specRuleRecords t name col).filter Record.isDisallowed
      = (specAllowedRecords name col cells).filter Record.isDisallowed := by
    simp only [specRuleRecords, hcells, List.filter_append]
    rw [specTypeRecords_filter_isDisallowed,
      specMinRecords_filter (fun nm b r v => rfl),
      specMaxRecords_filter (fun nm b r v => rfl)]
    simp
  constructor
  · intro hall
    rw [hsplit]
    simp only [specAllowedRecords, hall]
    rw [filter_map_true (fun (c : Nat × PyVal) => rfl), filter_not_any_nil]
  · intro hnone
    rw [hsplit]
    simp [specAllowedRecords, hnone]

/-- Claim C10 witness: two int cells under `allowed = some []` both flagged. -/
theorem empty_allowed_flags_every_cell_witness :
    ((Column.mk PyType.int Option.none Option.none
        (Option.some ([] : List PyVal))).allowed = Option.some [] →
      ([Record.disallowedValue "a" 0 (PyVal.int 1),
        Record.disallowedValue "a" 1 (PyVal.int 2)] : List Record).filter
          Record.isDisallowed
        = ([(0, PyVal.int 1), (1, PyVal.int 2)] : Cells).map
            (fun c => Record.disallowedValue "a" c.1 c.2))
    ∧ ((Column.mk PyType.int Option.none Option.none
        (Option.some ([] : List PyVal))).allowed = Option.none →
      ([Record.disallowedValue "a" 0 (PyVal.int 1),
        Record.disallowedValue "a" 1 (PyVal.int 2)] : List Record).filter
          Record.isDisallowed = []) :=
  empty_allowed_flags_every_cell
    [("a", [(0, PyVal.int 1), (1, PyVal.int 2)])] "a"
    (Column.mk PyType.int Option.none Option.none (Option.some []))
    [(0, PyVal.int 1), (1, PyVal.int 2)]
    [Record.disallowedValue "a" 0 (PyVal.int 1),
     Record.disallowedValue "a" 1 (PyVal.int 2)]
    rfl rfl

end DataContracts
